import Mathlib

set_option maxHeartbeats 1000000

/-
Verification development for the subculture-forum partitioned database layer.

The stateful JavaScript services are shallowly embedded as pure Lean
functions over explicit state records:

  - DatabaseManager (src/services/DatabaseManager.js): the partition
    registry (forumDBs cache, createForumDB, createForumTables with the
    FTS5 triggers, runTransaction, createNewForumCategory,
    deleteForumCategory);
  - AdminService.deleteCategory (src/services/AdminService.js);
  - AuthService.assignModerator / removeModerator / checkPermission
    (src/unnamed/part_009);
  - ForumService.getSubforums / getSubforumStats / getPosts / getPost
    (src/unnamed/part_010).

SQLite rows are Lean structures, tables are lists kept in insertion
(rowid) order, awaited store calls that can fail are modelled with an
explicit failure flag or an Except result, and the single await point
inside DatabaseManager.getForumDB is modelled as an explicit two-phase
step machine so that interleavings of two concurrent calls can be
enumerated.
-/

namespace Forum

/-- Roles, from the config-store CHECK constraint
role IN ('user', 'moderator', 'super_admin'). -/
inductive Role where
  | user
  | moderator
  | super_admin
deriving DecidableEq, Repr

/-- A row of the users table (config store). -/
structure User where
  id : Nat
  username : String
  role : Role
deriving DecidableEq, Repr

/-- A row of the categories table (config store). -/
structure Category where
  id : Nat
  name : String
  description : String
  display_order : Nat
  is_active : Bool
  created_at : Nat
deriving DecidableEq, Repr

/-- A row of the posts table (one per content partition). -/
structure Post where
  id : Nat
  category_id : Nat
  user_id : Nat
  title : String
  content : String
  view_count : Nat
  created_at : Nat
  updated_at : Nat
  last_comment_at : Nat
deriving DecidableEq, Repr

/-- A row of the comments table (content partition). -/
structure Comment where
  id : Nat
  post_id : Nat
  user_id : Nat
  content : String
  created_at : Nat
deriving DecidableEq, Repr

/-- A row of the attachments table (content partition). -/
structure Attachment where
  id : Nat
  post_id : Nat
  filename : String
  created_at : Nat
deriving DecidableEq, Repr

/-- A row of the posts_fts FTS5 index: rowid points at the posts row,
title and content are the indexed columns. -/
structure FtsEntry where
  rowid : Nat
  title : String
  content : String
deriving DecidableEq, Repr

/-- One content partition (one forum_<id>.db store): the tables created
by DatabaseManager.createForumTables.  nextPostId models the
AUTOINCREMENT counter of the posts table (starts at 1). -/
structure ForumPartition where
  posts : List Post
  comments : List Comment
  attachments : List Attachment
  posts_fts : List FtsEntry
  nextPostId : Nat
deriving DecidableEq, Repr

/-- A freshly created partition, right after createForumTables ran. -/
def emptyPartition : ForumPartition :=
  { posts := [], comments := [], attachments := [], posts_fts := [], nextPostId := 1 }

/-- The config store (config.db): the tables created by
createConfigTables that the verified claims touch.  moderator_permissions
rows are (user_id, category_id) pairs; activity_logs keeps the
(user_id, action) pairs appended by logUserActivity. -/
structure ConfigStore where
  users : List User
  categories : List Category
  moderator_permissions : List (Nat × Nat)
  activity_logs : List (Nat × String)
deriving DecidableEq, Repr

/-! ## DatabaseManager.runTransaction (C9)

src/services/DatabaseManager.js lines 276-319.  A query is modelled as a
state transformer that either succeeds with the new store state or fails
(none).  The loop mirrors executeQuery: on a failing query it sets
hasError and keeps executing the remaining queries against the store;
at the end it issues ROLLBACK (restoring the state the transaction
started from) and rejects when hasError is set, otherwise COMMIT. -/

/-- A parameterized statement handed to runTransaction: applied to the
current store state it yields the updated state, or none on error. -/
def TxQuery (σ : Type) : Type := σ → Option σ

/-- The executeQuery loop of runTransaction: threads the store state and
the hasError flag through the query list.  A failed query changes
nothing but sets hasError; execution continues with the next query. -/
def runTransactionLoop {σ : Type} (s : σ) (hasError : Bool) :
    List (TxQuery σ) → σ × Bool
  | [] => (s, hasError)
  | q :: qs =>
    match q s with
    | some s' => runTransactionLoop s' hasError qs
    | none => runTransactionLoop s true qs

/-- Outcome of runTransaction: whether COMMIT ran (resolve) or ROLLBACK
ran and the promise rejected, together with the store state after the
call (ROLLBACK restores the state from before BEGIN TRANSACTION). -/
structure TxOutcome (σ : Type) where
  committed : Bool
  dbState : σ
deriving DecidableEq, Repr

/-- DatabaseManager.runTransaction: BEGIN, run every query, then COMMIT
if none failed, else ROLLBACK and reject. -/
def runTransaction {σ : Type} (db : σ) (queries : List (TxQuery σ)) : TxOutcome σ :=
  let r := runTransactionLoop db false queries
  if r.2 then { committed := false, dbState := db }
  else { committed := true, dbState := r.1 }

/-- Sequential application of the queries, stopping at the first
failure: the reference meaning of an all-or-nothing transaction. -/
def txApply {σ : Type} (s : σ) : List (TxQuery σ) → Option σ
  | [] => some s
  | q :: qs =>
    match q s with
    | some s' => txApply s' qs
    | none => none

/-! ## DatabaseManager.getForumDB as a two-phase step machine (C1)

src/services/DatabaseManager.js lines 521-535 (same body at 137-151):

    if (!this.forumDBs.has(categoryId)) {
        const db = await this.createForumDB(categoryId);
        this.forumDBs.set(categoryId, db);
    }
    return this.forumDBs.get(categoryId);

The await on createForumDB is the one suspension point, so one call is
two atomic segments: the cache check (phase start) and the resume after
createForumDB resolves (phase creating), which creates the physical
store, applies the schema, stores the handle in the map and returns the
map entry.  Handles are numbered by a fresh counter; storesCreated
counts completed createForumDB calls (physical store creations plus
schema applications). -/

/-- Where a single getForumDB call stands. -/
inductive OpenPhase where
  | start
  | creating
  | done (handle : Nat)
deriving DecidableEq, Repr

/-- The shared mutable state of the registry relevant to getForumDB. -/
structure RegistryState where
  forumDBs : List (Nat × Nat)
  nextHandle : Nat
  storesCreated : Nat
deriving DecidableEq, Repr

/-- Map.get on the forumDBs cache. -/
def cacheGet (m : List (Nat × Nat)) (k : Nat) : Option Nat :=
  (m.find? (fun e => e.1 == k)).map (fun e => e.2)

/-- Map.set on the forumDBs cache (overwrites an existing entry). -/
def cacheSet (m : List (Nat × Nat)) (k v : Nat) : List (Nat × Nat) :=
  if m.any (fun e => e.1 == k) then
    m.map (fun e => if e.1 == k then (k, v) else e)
  else
    m ++ [(k, v)]

/-- One atomic segment of a getForumDB(k) call. -/
def openStep (st : RegistryState) (k : Nat) : OpenPhase → RegistryState × OpenPhase
  | .start =>
    match cacheGet st.forumDBs k with
    | some h => (st, .done h)
    | none => (st, .creating)
  | .creating =>
    let h := st.nextHandle
    let st' : RegistryState :=
      { forumDBs := cacheSet st.forumDBs k h
        nextHandle := h + 1
        storesCreated := st.storesCreated + 1 }
    (st', .done h)
  | .done h => (st, .done h)

/-- Joint state of two concurrent getForumDB(k) calls A and B. -/
structure TwoOpens where
  reg : RegistryState
  phaseA : OpenPhase
  phaseB : OpenPhase
deriving DecidableEq, Repr

/-- Run the two calls under an explicit event-loop schedule: true runs
the next segment of call A, false of call B. -/
def runSchedule (k : Nat) : List Bool → TwoOpens → TwoOpens
  | [], s => s
  | b :: rest, s =>
    if b then
      let (r, p) := openStep s.reg k s.phaseA
      runSchedule k rest { s with reg := r, phaseA := p }
    else
      let (r, p) := openStep s.reg k s.phaseB
      runSchedule k rest { s with reg := r, phaseB := p }

/-- Both calls start before the cache check, with key k never opened. -/
def twoOpensInit : TwoOpens :=
  { reg := { forumDBs := [], nextHandle := 0, storesCreated := 0 }
    phaseA := .start
    phaseB := .start }

/-! ## AuthService: moderator grants and role transitions (C5)

src/unnamed/part_009, AuthService.  checkPermission with action
manage_users returns true exactly for super_admin (after the
nonexistent-user guard); assignModerator and removeModerator follow the
source statement sequence. -/

/-- AuthService.getUserById: SELECT from users WHERE id = ?. -/
def getUserById (cfg : ConfigStore) (userId : Nat) : Option User :=
  cfg.users.find? (fun u => u.id == userId)

/-- Does a categories row with this id exist (SELECT id FROM categories
WHERE id = ?, as used by assignModerator). -/
def categoryRowExists (cfg : ConfigStore) (categoryId : Nat) : Bool :=
  cfg.categories.any (fun c => c.id == categoryId)

/-- Is there a moderator_permissions row for (userId, categoryId). -/
def hasModeratorPermission (cfg : ConfigStore) (userId categoryId : Nat) : Bool :=
  cfg.moderator_permissions.any (fun g => g.1 == userId && g.2 == categoryId)

/-- UPDATE users SET role = ? WHERE id = ?. -/
def setUserRole (cfg : ConfigStore) (userId : Nat) (r : Role) : ConfigStore :=
  { cfg with users := cfg.users.map (fun u => if u.id == userId then { u with role := r } else u) }

/-- SELECT COUNT(*) FROM moderator_permissions WHERE user_id = ?. -/
def countModeratorPermissions (cfg : ConfigStore) (userId : Nat) : Nat :=
  (cfg.moderator_permissions.filter (fun g => g.1 == userId)).length

/-- AuthService.logUserActivity: INSERT INTO user_activity_logs. -/
def logUserActivity (cfg : ConfigStore) (userId : Nat) (action : String) : ConfigStore :=
  { cfg with activity_logs := cfg.activity_logs ++ [(userId, action)] }

/-- AuthService.checkPermission for the manage_users action: false for a
missing userId or missing user, true only for super_admin. -/
def checkManageUsers (cfg : ConfigStore) (userId : Nat) : Bool :=
  if userId == 0 then false
  else
    match getUserById cfg userId with
    | none => false
    | some u => u.role == .super_admin

/-- AuthService.checkPermission for the admin_site action (used by
AdminService.deleteCategory): true only for super_admin. -/
def checkAdminSite (cfg : ConfigStore) (userId : Nat) : Bool :=
  if userId == 0 then false
  else
    match getUserById cfg userId with
    | none => false
    | some u => u.role == .super_admin

/-- Failures surfaced by the auth and admin services. -/
inductive SvcError where
  | permissionDenied
  | validation
  | notFound
  | alreadyModerator
  | notModerator
  | storeFailure
deriving DecidableEq, Repr

instance {ε α : Type} [DecidableEq ε] [DecidableEq α] : DecidableEq (Except ε α) :=
  fun x y =>
    match x, y with
    | .error a, .error b =>
      if h : a = b then isTrue (congrArg Except.error h)
      else isFalse (fun hc => h (Except.error.inj hc))
    | .error _, .ok _ => isFalse (fun hc => Except.noConfusion hc)
    | .ok _, .error _ => isFalse (fun hc => Except.noConfusion hc)
    | .ok a, .ok b =>
      if h : a = b then isTrue (congrArg Except.ok h)
      else isFalse (fun hc => h (Except.ok.inj hc))

/-- AuthService.assignModerator: admin check, user and category lookup,
duplicate-grant check, promotion of a plain user to moderator, then the
INSERT of the grant row and the activity log entry. -/
def assignModerator (cfg : ConfigStore) (adminUserId userId categoryId : Nat) :
    Except SvcError ConfigStore :=
  if !checkManageUsers cfg adminUserId then .error .permissionDenied
  else
    match getUserById cfg userId with
    | none => .error .notFound
    | some user =>
      if !categoryRowExists cfg categoryId then .error .notFound
      else if hasModeratorPermission cfg userId categoryId then .error .alreadyModerator
      else
        let cfg1 := if user.role == .user then setUserRole cfg userId .moderator else cfg
        let cfg2 :=
          { cfg1 with moderator_permissions := cfg1.moderator_permissions ++ [(userId, categoryId)] }
        .ok (logUserActivity cfg2 userId "moderator_assigned")

/-- AuthService.removeModerator: admin check, grant lookup, DELETE of
the grant row, then the remaining-grant count (taken after the delete)
decides whether a moderator is demoted back to user. -/
def removeModerator (cfg : ConfigStore) (adminUserId userId categoryId : Nat) :
    Except SvcError ConfigStore :=
  if !checkManageUsers cfg adminUserId then .error .permissionDenied
  else if !hasModeratorPermission cfg userId categoryId then .error .notModerator
  else
    let cfg1 :=
      { cfg with moderator_permissions :=
          cfg.moderator_permissions.filter (fun g => !(g.1 == userId && g.2 == categoryId)) }
    let cfg2 :=
      if countModeratorPermissions cfg1 userId == 0 then
        match getUserById cfg1 userId with
        | some u => if u.role == .moderator then setUserRole cfg1 userId .user else cfg1
        | none => cfg1
      else cfg1
    .ok (logUserActivity cfg2 userId "moderator_removed")

/-! ## DatabaseManager category lifecycle (C2, C3)

The process-wide state seen by DatabaseManager and AdminService: the
config store, the AUTOINCREMENT counter of the categories table, the
physical forum_<id>.db stores on disk, and the keys cached in the
forumDBs map. -/

structure DBState where
  config : ConfigStore
  nextCategoryId : Nat
  stores : List (Nat × ForumPartition)
  openDBs : List Nat
deriving DecidableEq, Repr

/-- Look up the physical store for a category. -/
def storeFor (st : DBState) (categoryId : Nat) : Option ForumPartition :=
  (st.stores.find? (fun e => e.1 == categoryId)).map (fun e => e.2)

/-- DatabaseManager.createForumDB: opens forum_<id>.db, creating the
file and applying the content schema when it does not exist yet
(CREATE TABLE IF NOT EXISTS makes the application idempotent). -/
def createForumDB (st : DBState) (categoryId : Nat) : DBState :=
  if (st.stores.any (fun e => e.1 == categoryId)) then st
  else { st with stores := st.stores ++ [(categoryId, emptyPartition)] }

/-- DatabaseManager.getForumDB, state effect only: create the store on
first reference and remember the key in the forumDBs cache. -/
def getForumDBEffect (st : DBState) (categoryId : Nat) : DBState :=
  if st.openDBs.contains categoryId then st
  else
    let st' := createForumDB st categoryId
    { st' with openDBs := st'.openDBs ++ [categoryId] }

/-- The trim of JavaScript: strip leading and trailing whitespace
(written over the character list so that it evaluates inside the
kernel). -/
def jsTrim (s : String) : String :=
  ⟨((s.data.dropWhile Char.isWhitespace).reverse.dropWhile Char.isWhitespace).reverse⟩

/-- DatabaseManager.createNewForumCategory
(src/services/DatabaseManager.js lines 784-823).  The categories INSERT
runs as a plain statement; only afterwards does createForumDB run, and
a failure there is logged and rethrown without undoing the INSERT.  The
forumDBFails flag injects that failure.  The call returns the state the
process is left in together with the outcome. -/
def createNewForumCategory (st : DBState) (name description : String)
    (displayOrder : Nat) (forumDBFails : Bool) :
    DBState × Except SvcError Category :=
  if ((jsTrim name).length == 0) then (st, .error .validation)
  else
    let cid := st.nextCategoryId
    let cat : Category :=
      { id := cid, name := jsTrim name, description := description
        display_order := displayOrder, is_active := true, created_at := 0 }
    let st1 :=
      { st with
        config := { st.config with categories := st.config.categories ++ [cat] }
        nextCategoryId := cid + 1 }
    if forumDBFails then (st1, .error .storeFailure)
    else (createForumDB st1 cid, .ok cat)

/-- DatabaseManager.deleteForumCategory
(src/services/DatabaseManager.js lines 826-887): category lookup, one
config-store transaction deleting the moderator_permissions rows and the
categories row, then close of the cached handle and removal of the
physical store file. -/
def deleteForumCategory (st : DBState) (categoryId : Nat) :
    DBState × Except SvcError Bool :=
  if categoryId == 0 then (st, .error .validation)
  else
    match st.config.categories.find? (fun c => c.id == categoryId) with
    | none => (st, .error .notFound)
    | some _ =>
      let cfg :=
        { st.config with
          moderator_permissions :=
            st.config.moderator_permissions.filter (fun g => !(g.2 == categoryId))
          categories := st.config.categories.filter (fun c => !(c.id == categoryId)) }
      let st1 :=
        { st with
          config := cfg
          openDBs := st.openDBs.filter (fun k => !(k == categoryId))
          stores := st.stores.filter (fun e => !(e.1 == categoryId)) }
      (st1, .ok true)

/-- Number of posts rows of the partition whose category_id column
equals the key (SELECT COUNT(*) FROM posts WHERE category_id = ?). -/
def partitionPostCount (part : ForumPartition) (categoryId : Nat) : Nat :=
  (part.posts.filter (fun p => p.category_id == categoryId)).length

/-- AdminService.deleteCategory (src/services/AdminService.js lines
192-253).  After the permission and existence checks it counts the
posts of the partition inside a try block; a count above zero throws
the non-empty error, but the surrounding catch only logs when the
message does not carry the non-empty marker and never rethrows, so
execution falls through to deleteForumCategory in every case. -/
def deleteCategory (st : DBState) (adminUserId categoryId : Nat) :
    DBState × Except SvcError Bool :=
  if !checkAdminSite st.config adminUserId then (st, .error .permissionDenied)
  else if categoryId == 0 then (st, .error .validation)
  else
    match st.config.categories.find? (fun c => c.id == categoryId && c.is_active) with
    | none => (st, .error .notFound)
    | some _ =>
      let st1 := getForumDBEffect st categoryId
      let nonEmptyThrown :=
        match storeFor st1 categoryId with
        | some part => decide (0 < partitionPostCount part categoryId)
        | none => false
      let _ := nonEmptyThrown
      match deleteForumCategory st1 categoryId with
      | (st2, .ok _) =>
        ({ st2 with config := logUserActivity st2.config adminUserId "category_deleted" },
          .ok true)
      | (st2, .error e) => (st2, .error e)

/-! ## Post writes and the FTS5 triggers (C4)

src/services/DatabaseManager.js lines 175-230: the posts table, the
posts_fts FTS5 index and the three triggers posts_ai, posts_ad,
posts_au.  The delete command of FTS5, INSERT INTO
posts_fts(posts_fts, rowid, ...) VALUES('delete', old.id, ...),
removes the index entry for that rowid. -/

/-- The FTS5 delete command applied to the index list. -/
def ftsDelete (fts : List FtsEntry) (rowid : Nat) : List FtsEntry :=
  fts.filter (fun e => !(e.rowid == rowid))

/-- INSERT INTO posts: the row gets the next AUTOINCREMENT id and the
posts_ai trigger inserts the matching index entry. -/
def postInsert (part : ForumPartition) (category_id user_id : Nat)
    (title content : String) (now : Nat) : ForumPartition :=
  let pid := part.nextPostId
  { part with
    posts := part.posts ++
      [{ id := pid, category_id := category_id, user_id := user_id
         title := title, content := content, view_count := 0
         created_at := now, updated_at := now, last_comment_at := now }]
    posts_fts := part.posts_fts ++ [{ rowid := pid, title := title, content := content }]
    nextPostId := pid + 1 }

/-- UPDATE posts SET title = ?, content = ? WHERE id = ?: when a row
matches, the posts_au trigger first issues the FTS delete for the old
rowid and then inserts the fresh entry; when no row matches, no trigger
fires. -/
def postUpdate (part : ForumPartition) (postId : Nat)
    (title content : String) (now : Nat) : ForumPartition :=
  match part.posts.find? (fun p => p.id == postId) with
  | none => part
  | some _ =>
    { part with
      posts := part.posts.map (fun p =>
        if p.id == postId then { p with title := title, content := content, updated_at := now }
        else p)
      posts_fts := ftsDelete part.posts_fts postId ++
        [{ rowid := postId, title := title, content := content }] }

/-- DELETE FROM posts WHERE id = ?: the posts_ad trigger removes the
index entry, and ON DELETE CASCADE removes the comments of the post. -/
def postDelete (part : ForumPartition) (postId : Nat) : ForumPartition :=
  { part with
    posts := part.posts.filter (fun p => !(p.id == postId))
    comments := part.comments.filter (fun c => !(c.post_id == postId))
    posts_fts := ftsDelete part.posts_fts postId }

/-- The FTS5 unicode61 tokenizer over a column value: lower-cased runs
of alphanumeric characters (written over the character list so that it
evaluates inside the kernel). -/
def ftsTokens (s : String) : List String :=
  (((s.data.map Char.toLower).splitOnP (fun c => !c.isAlphanum)).filter
    (fun t => !t.isEmpty)).map (fun t => String.mk t)

/-- Does an index entry match a one-term query (MATCH against the
indexed title and content columns). -/
def ftsEntryMatch (e : FtsEntry) (term : String) : Bool :=
  (ftsTokens e.title ++ ftsTokens e.content).contains term

/-- SELECT rowid FROM posts_fts WHERE posts_fts MATCH term: the post
ids whose index entry matches. -/
def searchPostIds (part : ForumPartition) (term : String) : List Nat :=
  (part.posts_fts.filter (fun e => ftsEntryMatch e term)).map (fun e => e.rowid)

/-- The partition is well formed: post ids are distinct and below the
AUTOINCREMENT counter. -/
def wfPartition (part : ForumPartition) : Prop :=
  (part.posts.map (fun p => p.id)).Nodup ∧ ∀ p ∈ part.posts, p.id < part.nextPostId

/-- The search index agrees with the posts table: an index entry exists
exactly for the (id, title, content) of some stored post. -/
def ftsConsistent (part : ForumPartition) : Prop :=
  ∀ e : FtsEntry, e ∈ part.posts_fts ↔
    ∃ p ∈ part.posts, p.id = e.rowid ∧ p.title = e.title ∧ p.content = e.content

/-! ## ForumService.getPosts (C6)

src/unnamed/part_010 lines 205-312.  ORDER BY <column> DESC is modelled
as a stable insertion sort over the table held in rowid (insertion)
order, so rows with equal sort keys stay in insertion order, matching
the stable scan order SQLite produces for these single-table queries.
LIMIT ? OFFSET ? becomes drop/take, Math.ceil(totalCount / limit) the
rounded-up Nat division. -/

/-- Insert a post into a list already sorted descending by the key:
the post goes before the first element whose key is not larger, so
earlier rows keep priority on ties. -/
def insertDescBy (key : Post → Nat) (x : Post) : List Post → List Post
  | [] => [x]
  | y :: ys => if key y ≤ key x then x :: y :: ys else y :: insertDescBy key x ys

/-- Stable descending sort by the key. -/
def sortDescBy (key : Post → Nat) : List Post → List Post
  | [] => []
  | x :: xs => insertDescBy key x (sortDescBy key xs)

/-- A row of the getPosts result: the post joined in memory with the
author looked up in the config store. -/
structure PostRow where
  post : Post
  username : String
  role : Role
deriving DecidableEq, Repr

/-- The pagination block of the getPosts result. -/
structure Pagination where
  current_page : Nat
  total_pages : Nat
  total_count : Nat
  limit : Nat
  has_next : Bool
  has_prev : Bool
deriving DecidableEq, Repr

/-- The getPosts result. -/
structure PostsPage where
  posts : List PostRow
  pagination : Pagination
deriving DecidableEq, Repr

/-- The cross-store author join of getPosts: a missing user resolves to
the unknown sentinel and the user role. -/
def postRowOf (cfg : ConfigStore) (p : Post) : PostRow :=
  match getUserById cfg p.user_id with
  | some u => { post := p, username := u.username, role := u.role }
  | none => { post := p, username := "알 수 없음", role := .user }

/-- ForumService.getPosts: validation of the subforum id and the sort
key, the sorted and paged SELECT, the per-author join, the COUNT query
and the pagination block. -/
def getPosts (cfg : ConfigStore) (part : ForumPartition) (subforumId : Nat)
    (sortBy : String) (page limit : Nat) : Except SvcError PostsPage :=
  if subforumId == 0 then .error .validation
  else if !(["created_at", "last_comment_at"].contains sortBy) then .error .validation
  else
    let key : Post → Nat :=
      if sortBy == "last_comment_at" then fun p => p.last_comment_at
      else fun p => p.created_at
    let matching := part.posts.filter (fun p => p.category_id == subforumId)
    let offset := (page - 1) * limit
    let pagePosts := ((sortDescBy key matching).drop offset).take limit
    let totalCount := matching.length
    let totalPages := (totalCount + limit - 1) / limit
    .ok
      { posts := pagePosts.map (postRowOf cfg)
        pagination :=
          { current_page := page, total_pages := totalPages
            total_count := totalCount, limit := limit
            has_next := decide (page < totalPages)
            has_prev := decide (1 < page) } }

/-! ## ForumService.getPost (C7, C10)

src/unnamed/part_010 lines 658-728.  The storeFails flag injects a
failure of any awaited store call inside the try block; the catch turns
it into a null result.  The falsy-argument guards return null before
any store access. -/

/-- The getPost result row: the post joined with author, comment count
and attachment list. -/
structure PostDetail where
  post : Post
  username : String
  role : Role
  comment_count : Nat
  attachments : List Attachment
deriving DecidableEq, Repr

/-- ForumService.getAttachments: rows for the post ordered by
created_at ascending (the table is kept in insertion order, which the
schema keeps ascending in created_at for our model). -/
def getAttachments (part : ForumPartition) (postId : Nat) : List Attachment :=
  part.attachments.filter (fun a => a.post_id == postId)

/-- ForumService.getPost: returns the detail row (or none) together
with the partition state after the call, since incrementView mutates
the stored view_count. -/
def getPost (cfg : ConfigStore) (part : ForumPartition) (postId subforumId : Nat)
    (incrementView : Bool) (storeFails : Bool) :
    Option PostDetail × ForumPartition :=
  if postId == 0 || subforumId == 0 then (none, part)
  else if storeFails then (none, part)
  else
    match part.posts.find? (fun p => p.id == postId && p.category_id == subforumId) with
    | none => (none, part)
    | some p =>
      let userOpt := getUserById cfg p.user_id
      let part' :=
        if incrementView then
          { part with posts := part.posts.map (fun q =>
              if q.id == postId then { q with view_count := q.view_count + 1 } else q) }
        else part
      let shown := if incrementView then { p with view_count := p.view_count + 1 } else p
      let detail : PostDetail :=
        { post := shown
          username := match userOpt with | some u => u.username | none => "알 수 없음"
          role := match userOpt with | some u => u.role | none => .user
          comment_count := (part.comments.filter (fun c => c.post_id == postId)).length
          attachments := getAttachments part postId }
      (some detail, part')

/-! ## ForumService.getSubforums and getSubforumStats (C8)

src/unnamed/part_010 lines 13-41 and 86-174.  A partition on disk is
either readable or corrupted; getSubforumStats computes the stats
inside a try whose catch returns the all-zero stats, so the per-category
computation never fails and getSubforums always returns one annotated
entry per active category. -/

/-- Health of one physical partition store. -/
inductive StoreHealth where
  | readable (part : ForumPartition)
  | corrupted
deriving DecidableEq, Repr

/-- Summary of the most recent post of a partition. -/
structure LatestPost where
  id : Nat
  title : String
  created_at : Nat
  user_id : Nat
  username : String
deriving DecidableEq, Repr

/-- Summary of the most recent comment of a partition. -/
structure LatestComment where
  created_at : Nat
  user_id : Nat
  post_id : Nat
  post_title : String
  username : String
deriving DecidableEq, Repr

/-- The stats block attached to each subforum. -/
structure SubforumStats where
  post_count : Nat
  comment_count : Nat
  latest_post : Option LatestPost
  latest_comment : Option LatestComment
  last_activity_at : Option Nat
deriving DecidableEq, Repr

/-- The stats the catch branch of getSubforumStats returns. -/
def zeroStats : SubforumStats :=
  { post_count := 0, comment_count := 0, latest_post := none
    latest_comment := none, last_activity_at := none }

/-- Username lookup with the unknown sentinel. -/
def usernameOf (cfg : ConfigStore) (userId : Nat) : String :=
  match getUserById cfg userId with
  | some u => u.username
  | none => "알 수 없음"

/-- ForumService.getLastActivityTime: the later of the two timestamps;
on a tie the comment time is returned. -/
def lastActivityTime (postTime commentTime : Option Nat) : Option Nat :=
  match postTime, commentTime with
  | none, none => none
  | none, some c => some c
  | some p, none => some p
  | some p, some c => if c < p then some p else some c

/-- Insertion step of the descending created_at order on comments. -/
def insertCommentDesc (x : Comment) : List Comment → List Comment
  | [] => [x]
  | y :: ys =>
    if y.created_at ≤ x.created_at then x :: y :: ys else y :: insertCommentDesc x ys

/-- Stable descending sort of comments by created_at (ORDER BY
c.created_at DESC). -/
def sortCommentsDesc : List Comment → List Comment
  | [] => []
  | x :: xs => insertCommentDesc x (sortCommentsDesc xs)

/-- The stats queries of getSubforumStats over a readable partition:
post count, comment count through the join with posts, the most recent
post and comment with their authors, and the derived last activity. -/
def computeStats (cfg : ConfigStore) (part : ForumPartition) (sid : Nat) : SubforumStats :=
  let posts := part.posts.filter (fun p => p.category_id == sid)
  let joined := part.comments.filter (fun c =>
    part.posts.any (fun p => p.id == c.post_id && p.category_id == sid))
  let latestPost :=
    (sortDescBy (fun p => p.created_at) posts).head?.map (fun p =>
      { id := p.id, title := p.title, created_at := p.created_at
        user_id := p.user_id, username := usernameOf cfg p.user_id : LatestPost })
  let latestComment :=
    ((sortCommentsDesc joined).head?).bind (fun c =>
      (part.posts.find? (fun p => p.id == c.post_id)).map (fun p =>
        { created_at := c.created_at, user_id := c.user_id, post_id := p.id
          post_title := p.title, username := usernameOf cfg c.user_id : LatestComment }))
  { post_count := posts.length
    comment_count := joined.length
    latest_post := latestPost
    latest_comment := latestComment
    last_activity_at :=
      lastActivityTime (latestPost.map (fun l => l.created_at))
        (latestComment.map (fun l => l.created_at)) }

/-- ForumService.getSubforumStats: the try body over the store of the
category, the catch mapping any failure to the all-zero stats.  A key
with no store yet is created empty by getForumDB, so it contributes the
stats of the empty partition (which equal zeroStats). -/
def getSubforumStats (cfg : ConfigStore) (stores : List (Nat × StoreHealth))
    (sid : Nat) : SubforumStats :=
  match (stores.find? (fun e => e.1 == sid)).map (fun e => e.2) with
  | some (StoreHealth.readable part) => computeStats cfg part sid
  | some StoreHealth.corrupted => zeroStats
  | none => computeStats cfg emptyPartition sid

/-- Ascending insertion by (display_order, created_at), keeping earlier
rows first on full ties: ORDER BY display_order ASC, created_at ASC. -/
def insertCategoryAsc (x : Category) : List Category → List Category
  | [] => [x]
  | y :: ys =>
    if x.display_order < y.display_order ∨
        (x.display_order = y.display_order ∧ x.created_at ≤ y.created_at) then
      x :: y :: ys
    else y :: insertCategoryAsc x ys

/-- The active-category listing order of getSubforums. -/
def sortCategoriesAsc : List Category → List Category
  | [] => []
  | x :: xs => insertCategoryAsc x (sortCategoriesAsc xs)

/-- ForumService.getSubforums: the active categories in listing order,
each annotated with its stats.  Every per-category stats computation is
total, so the fan-out always succeeds. -/
def getSubforums (cfg : ConfigStore) (stores : List (Nat × StoreHealth)) :
    Except SvcError (List (Category × SubforumStats)) :=
  .ok ((sortCategoriesAsc (cfg.categories.filter (fun c => c.is_active))).map
    (fun c => (c, getSubforumStats cfg stores c.id)))

/-! ## Theorems -/

/-- Once the hasError flag is set the loop can never clear it. -/
lemma runTransactionLoop_error_stays {σ : Type} :
    ∀ (qs : List (TxQuery σ)) (s : σ), (runTransactionLoop s true qs).2 = true := by
  intro qs
  induction qs with
  | nil => intro s; rfl
  | cons q qs ih =>
    intro s
    simp only [runTransactionLoop]
    cases q s with
    | some s' => exact ih s'
    | none => exact ih s

/-- If every query succeeds, the loop ends in the sequentially applied
state with the flag still clear. -/
lemma runTransactionLoop_ok {σ : Type} :
    ∀ (qs : List (TxQuery σ)) (s s' : σ), txApply s qs = some s' →
      runTransactionLoop s false qs = (s', false) := by
  intro qs
  induction qs with
  | nil =>
    intro s s' h
    simp only [txApply, Option.some.injEq] at h
    simp [runTransactionLoop, h]
  | cons q qs ih =>
    intro s s' h
    simp only [txApply] at h
    simp only [runTransactionLoop]
    cases hq : q s with
    | some s1 => rw [hq] at h; exact ih s1 s' h
    | none => rw [hq] at h; exact absurd h (by simp)

/-- If some query fails, the loop ends with the flag set. -/
lemma runTransactionLoop_fail {σ : Type} :
    ∀ (qs : List (TxQuery σ)) (s : σ), txApply s qs = none →
      (runTransactionLoop s false qs).2 = true := by
  intro qs
  induction qs with
  | nil => intro s h; simp [txApply] at h
  | cons q qs ih =>
    intro s h
    simp only [txApply] at h
    simp only [runTransactionLoop]
    cases hq : q s with
    | some s1 => rw [hq] at h; exact ih s1 h
    | none => exact runTransactionLoop_error_stays qs s

/-- C9: runTransaction is all-or-nothing.  When the sequential
application of all the queries succeeds, the call commits exactly that
final state; when any query fails along the way, the call rejects and
ROLLBACK leaves the store in the state it had before the transaction,
even though the loop went on executing the remaining queries. -/
theorem runTransaction_all_or_nothing {σ : Type} (db : σ) (qs : List (TxQuery σ)) :
    (∀ s', txApply db qs = some s' → runTransaction db qs = { committed := true, dbState := s' }) ∧
    (txApply db qs = none → runTransaction db qs = { committed := false, dbState := db }) := by
  constructor
  · intro s' h
    simp [runTransaction, runTransactionLoop_ok qs db s' h]
  · intro h
    simp [runTransaction, runTransactionLoop_fail qs db h]

/-- C9 witness: a two-query transaction where both succeed commits the
composed effects; a three-query transaction whose middle query fails
rejects and leaves the store untouched, although its first and last
queries succeeded individually. -/
theorem runTransaction_all_or_nothing_witness :
    runTransaction (σ := Nat) 0 [fun n => some (n + 1), fun n => some (n * 3)] =
      { committed := true, dbState := 3 } ∧
    runTransaction (σ := Nat) 0
        [fun n => some (n + 1), fun _ => none, fun n => some (n + 5)] =
      { committed := false, dbState := 0 } :=
  ⟨(runTransaction_all_or_nothing 0 _).1 3 rfl,
   (runTransaction_all_or_nothing 0 _).2 rfl⟩

/-- C1: the cache check and the cache fill of getForumDB sit on either
side of the awaited createForumDB call, so the event-loop interleaving
in which both calls run their cache check before either creation
resolves (schedule A, B, A, B) creates the physical store and applies
the schema twice and hands the two callers two distinct handles (the
cache keeps only the second).  Only the fully sequential schedule
(A, A, B) gives the single creation and shared handle the claim
demands. -/
theorem getForumDB_concurrent_open_races :
    (runSchedule 7 [true, false, true, false] twoOpensInit).reg.storesCreated = 2 ∧
    (runSchedule 7 [true, false, true, false] twoOpensInit).phaseA = .done 0 ∧
    (runSchedule 7 [true, false, true, false] twoOpensInit).phaseB = .done 1 ∧
    (runSchedule 7 [true, true, false] twoOpensInit).reg.storesCreated = 1 ∧
    (runSchedule 7 [true, true, false] twoOpensInit).phaseA =
      (runSchedule 7 [true, true, false] twoOpensInit).phaseB := by
  decide

/-- The process state right after initialization: config store with one
super_admin (id 9) and one plain member (id 5), no categories, no
partitions; the categories AUTOINCREMENT counter starts at 1. -/
def dbState0 : DBState :=
  { config :=
      { users :=
          [{ id := 9, username := "admin", role := .super_admin },
           { id := 5, username := "alice", role := .user }]
        categories := []
        moderator_permissions := []
        activity_logs := [] }
    nextCategoryId := 1
    stores := []
    openDBs := [] }

/-- C2: when createForumDB fails after the categories INSERT,
createNewForumCategory rethrows without rolling the INSERT back: the
config store is left with the new Category row (id 1) while no
partition store for key 1 exists. -/
theorem createNewForumCategory_orphan_row_on_failure :
    (createNewForumCategory dbState0 "Free Talk" "" 0 true).2 = .error .storeFailure ∧
    ((createNewForumCategory dbState0 "Free Talk" "" 0 true).1.config.categories.map
      (fun c => c.id)) = [1] ∧
    storeFor (createNewForumCategory dbState0 "Free Talk" "" 0 true).1 1 = none := by
  decide

/-- A one-post partition for category 1, used as the C3 failing input. -/
def c3Partition : ForumPartition :=
  { emptyPartition with
    posts :=
      [{ id := 1, category_id := 1, user_id := 5, title := "hello", content := "world"
         view_count := 0, created_at := 1, updated_at := 1, last_comment_at := 1 }]
    nextPostId := 2 }

/-- System state with active category 1 whose partition holds one post,
one moderator grant for category 1, and the admin from dbState0. -/
def c3State : DBState :=
  { config :=
      { users := dbState0.config.users
        categories :=
          [{ id := 1, name := "Free Talk", description := "", display_order := 0
             is_active := true, created_at := 0 }]
        moderator_permissions := [(5, 1)]
        activity_logs := [] }
    nextCategoryId := 2
    stores := [(1, c3Partition)]
    openDBs := [1] }

/-- C3: the partition of category 1 holds one post, yet deleteCategory
succeeds: the non-empty error is thrown inside the inner try and the
catch swallows it, so the Category row, the ModeratorGrant rows and the
physical store are all removed instead of the call failing with a
Conflict and leaving the state unchanged. -/
theorem deleteCategory_ignores_nonempty_partition :
    (storeFor c3State 1).map (fun part => partitionPostCount part 1) = some 1 ∧
    (deleteCategory c3State 9 1).2 = .ok true ∧
    (deleteCategory c3State 9 1).1.config.categories = [] ∧
    (deleteCategory c3State 9 1).1.config.moderator_permissions = [] ∧
    (deleteCategory c3State 9 1).1.stores = [] := by
  decide

lemma mem_ftsDelete {fts : List FtsEntry} {r : Nat} {e : FtsEntry} :
    e ∈ ftsDelete fts r ↔ e ∈ fts ∧ ¬e.rowid = r := by
  simp [ftsDelete]

/-- The posts_ai trigger keeps the index consistent across an insert. -/
lemma ftsConsistent_postInsert (part : ForumPartition) (cid uid : Nat)
    (t c : String) (now : Nat) (hc : ftsConsistent part) :
    ftsConsistent (postInsert part cid uid t c now) := by
  intro e
  simp only [postInsert, List.mem_append, List.mem_singleton]
  constructor
  · rintro (he | rfl)
    · obtain ⟨p, hp, h1, h2, h3⟩ := (hc e).1 he
      exact ⟨p, Or.inl hp, h1, h2, h3⟩
    · exact ⟨_, Or.inr rfl, rfl, rfl, rfl⟩
  · rintro ⟨p, hp | rfl, h1, h2, h3⟩
    · exact Or.inl ((hc e).2 ⟨p, hp, h1, h2, h3⟩)
    · right
      cases e
      simp only at h1 h2 h3
      simp [h1, h2, h3]

/-- The delete-then-reinsert of the posts_au trigger keeps the index
consistent across an update and leaves no entry for the old text. -/
lemma ftsConsistent_postUpdate (part : ForumPartition) (pid : Nat)
    (t c : String) (now : Nat) (hc : ftsConsistent part) :
    ftsConsistent (postUpdate part pid t c now) := by
  unfold postUpdate
  cases hfind : part.posts.find? (fun p => p.id == pid) with
  | none => exact hc
  | some p0 =>
    have hp0mem : p0 ∈ part.posts := List.mem_of_find?_eq_some hfind
    have hp0id : p0.id = pid := by
      have := List.find?_some hfind
      simpa using this
    intro e
    simp only [List.mem_append, List.mem_singleton, mem_ftsDelete, List.mem_map]
    constructor
    · rintro (⟨he, hne⟩ | rfl)
      · obtain ⟨p, hp, h1, h2, h3⟩ := (hc e).1 he
        have hpid : ¬p.id = pid := by rw [h1]; exact hne
        refine ⟨p, ⟨p, hp, ?_⟩, h1, h2, h3⟩
        simp [hpid]
      · refine ⟨{ p0 with title := t, content := c, updated_at := now },
          ⟨p0, hp0mem, ?_⟩, ?_, rfl, rfl⟩
        · simp [hp0id]
        · simpa using hp0id
    · rintro ⟨q, ⟨p, hp, rfl⟩, h1, h2, h3⟩
      by_cases hpid : p.id = pid
      · right
        simp only [hpid, beq_self_eq_true, if_true] at h1 h2 h3
        cases e
        simp only at h1 h2 h3
        simp [← h1, ← h2, ← h3, hpid]
      · left
        rw [if_neg (by simpa using hpid)] at h1 h2 h3
        constructor
        · exact (hc e).2 ⟨p, hp, h1, h2, h3⟩
        · rw [← h1]; exact hpid


/-- The posts_ad trigger keeps the index consistent across a delete. -/
lemma ftsConsistent_postDelete (part : ForumPartition) (pid : Nat)
    (hc : ftsConsistent part) : ftsConsistent (postDelete part pid) := by
  intro e
  simp only [postDelete, mem_ftsDelete, List.mem_filter]
  constructor
  · rintro ⟨he, hne⟩
    obtain ⟨p, hp, h1, h2, h3⟩ := (hc e).1 he
    refine ⟨p, ⟨hp, ?_⟩, h1, h2, h3⟩
    simp [h1, hne]
  · rintro ⟨p, ⟨hp, hne⟩, h1, h2, h3⟩
    refine ⟨(hc e).2 ⟨p, hp, h1, h2, h3⟩, ?_⟩
    rw [← h1]
    simpa using hne

/-- C4: after any completed post write the search index stays
consistent with the posts table (insert, update with its
delete-then-reinsert trigger, delete), and concretely: a post inserted
with title Alpha Beta and body Gamma is found by a search for beta, and
after the edit that removes Beta from the title the same search no
longer returns it. -/
theorem search_index_consistency (part : ForumPartition)
    (category_id user_id postId now : Nat) (title content : String)
    (hc : ftsConsistent part) :
    ftsConsistent (postInsert part category_id user_id title content now) ∧
    ftsConsistent (postUpdate part postId title content now) ∧
    ftsConsistent (postDelete part postId) ∧
    searchPostIds (postInsert emptyPartition 1 42 "Alpha Beta" "Gamma" 0) "beta" = [1] ∧
    searchPostIds
      (postUpdate (postInsert emptyPartition 1 42 "Alpha Beta" "Gamma" 0) 1 "Alpha" "Gamma" 1)
      "beta" = [] :=
  ⟨ftsConsistent_postInsert part category_id user_id title content now hc,
   ftsConsistent_postUpdate part postId title content now hc,
   ftsConsistent_postDelete part postId hc,
   by decide, by decide⟩

/-- C4 witness: the freshly created partition has a consistent (empty)
index, and the theorem instantiates on it. -/
theorem search_index_consistency_witness :
    ftsConsistent (postInsert emptyPartition 1 42 "Alpha Beta" "Gamma" 0) ∧
    ftsConsistent (postUpdate emptyPartition 1 "Alpha Beta" "Gamma" 0) ∧
    ftsConsistent (postDelete emptyPartition 1) ∧
    searchPostIds (postInsert emptyPartition 1 42 "Alpha Beta" "Gamma" 0) "beta" = [1] ∧
    searchPostIds
      (postUpdate (postInsert emptyPartition 1 42 "Alpha Beta" "Gamma" 0) 1 "Alpha" "Gamma" 1)
      "beta" = [] :=
  search_index_consistency emptyPartition 1 42 1 0 "Alpha Beta" "Gamma"
    (by intro e; simp [emptyPartition])


/-! ## C5: moderator grant and role transitions -/

/-- The observable role of a user. -/
def userRoleOf (cfg : ConfigStore) (u : Nat) : Option Role :=
  (getUserById cfg u).map (fun x => x.role)

lemma find?_setRole_self (l : List User) (u : Nat) (r : Role) (usr : User)
    (h : l.find? (fun x => x.id == u) = some usr) :
    (l.map (fun x => if x.id == u then { x with role := r } else x)).find?
      (fun x => x.id == u) = some { usr with role := r } := by
  induction l with
  | nil => simp at h
  | cons x xs ih =>
    by_cases hx : x.id = u
    · rw [List.find?_cons_of_pos _ (by simpa using hx)] at h
      cases h
      simp only [List.map_cons]
      rw [if_pos (by simpa using hx)]
      exact List.find?_cons_of_pos _ (by simpa using hx)
    · rw [List.find?_cons_of_neg _ (by simpa using hx)] at h
      simp only [List.map_cons]
      rw [if_neg (by simpa using hx)]
      rw [List.find?_cons_of_neg _ (by simpa using hx)]
      exact ih h

lemma find?_setRole_ne (l : List User) (u v : Nat) (r : Role) (hne : ¬v = u) :
    (l.map (fun x => if x.id == u then { x with role := r } else x)).find?
      (fun x => x.id == v) = l.find? (fun x => x.id == v) := by
  induction l with
  | nil => rfl
  | cons x xs ih =>
    simp only [List.map_cons]
    by_cases hx : x.id = u
    · rw [if_pos (by simpa using hx)]
      have hxv : ¬x.id = v := by rw [hx]; intro hh; exact hne hh.symm
      rw [List.find?_cons_of_neg _ (by simpa using hxv),
          List.find?_cons_of_neg _ (by simpa using hxv)]
      exact ih
    · rw [if_neg (by simpa using hx)]
      by_cases hxv : x.id = v
      · rw [List.find?_cons_of_pos _ (by simpa using hxv),
            List.find?_cons_of_pos _ (by simpa using hxv)]
      · rw [List.find?_cons_of_neg _ (by simpa using hxv),
            List.find?_cons_of_neg _ (by simpa using hxv)]
        exact ih

lemma getUserById_setUserRole_self (cfg : ConfigStore) (u : Nat) (r : Role) (usr : User)
    (h : getUserById cfg u = some usr) :
    getUserById (setUserRole cfg u r) u = some { usr with role := r } := by
  simpa [getUserById, setUserRole] using find?_setRole_self cfg.users u r usr h

lemma getUserById_setUserRole_ne (cfg : ConfigStore) (u v : Nat) (r : Role) (hne : ¬v = u) :
    getUserById (setUserRole cfg u r) v = getUserById cfg v := by
  simpa [getUserById, setUserRole] using find?_setRole_ne cfg.users u v r hne

lemma no_grants_of_count_zero (cfg : ConfigStore) (u : Nat)
    (h : countModeratorPermissions cfg u = 0) :
    ∀ g ∈ cfg.moderator_permissions, ¬g.1 = u := by
  simp only [countModeratorPermissions, List.length_eq_zero, List.filter_eq_nil_iff] at h
  intro g hg
  simpa using h g hg

lemma hasModeratorPermission_false_of_count_zero (cfg : ConfigStore) (u c : Nat)
    (h : countModeratorPermissions cfg u = 0) :
    hasModeratorPermission cfg u c = false := by
  have hng := no_grants_of_count_zero cfg u h
  simp only [hasModeratorPermission, List.any_eq_false]
  intro g hg
  simp [hng g hg]


/-- The config store after the grant INSERT of assignModerator, in the
branch that first promotes a plain user to moderator. -/
def afterAssignPromote (cfg : ConfigStore) (u c : Nat) : ConfigStore :=
  logUserActivity
    { setUserRole cfg u .moderator with
      moderator_permissions := cfg.moderator_permissions ++ [(u, c)] }
    u "moderator_assigned"

/-- The config store after the grant INSERT of assignModerator when the
target already holds a role above user. -/
def afterAssignKeepRole (cfg : ConfigStore) (u c : Nat) : ConfigStore :=
  logUserActivity
    { cfg with moderator_permissions := cfg.moderator_permissions ++ [(u, c)] }
    u "moderator_assigned"

/-- The config store after the grant DELETE of removeModerator, before
the demotion decision is taken. -/
def removeGrantRow (cfg : ConfigStore) (u c : Nat) : ConfigStore :=
  { cfg with moderator_permissions :=
      cfg.moderator_permissions.filter (fun g => !(g.1 == u && g.2 == c)) }

lemma assignModerator_promotes (cfg : ConfigStore) (a u c : Nat) (usr : User)
    (hadmin : checkManageUsers cfg a = true)
    (hu : getUserById cfg u = some usr)
    (hrole : usr.role = .user)
    (hcat : categoryRowExists cfg c = true)
    (hgr : hasModeratorPermission cfg u c = false) :
    assignModerator cfg a u c = .ok (afterAssignPromote cfg u c) := by
  unfold assignModerator
  simp only [hadmin, hu, hcat, hgr, Bool.not_true, if_false]
  simp only [hrole]
  simp [afterAssignPromote, setUserRole, logUserActivity]

lemma assignModerator_keeps_role (cfg : ConfigStore) (a u c : Nat) (usr : User)
    (hadmin : checkManageUsers cfg a = true)
    (hu : getUserById cfg u = some usr)
    (hrole : usr.role = .moderator)
    (hcat : categoryRowExists cfg c = true)
    (hgr : hasModeratorPermission cfg u c = false) :
    assignModerator cfg a u c = .ok (afterAssignKeepRole cfg u c) := by
  unfold assignModerator
  simp only [hadmin, hu, hcat, hgr, Bool.not_true, if_false]
  simp only [hrole]
  simp [afterAssignKeepRole, logUserActivity]

lemma removeModerator_demotes (cfg : ConfigStore) (a u c : Nat) (musr : User)
    (hadmin : checkManageUsers cfg a = true)
    (hgr : hasModeratorPermission cfg u c = true)
    (hcnt : countModeratorPermissions (removeGrantRow cfg u c) u = 0)
    (hu : getUserById (removeGrantRow cfg u c) u = some musr)
    (hrole : musr.role = .moderator) :
    removeModerator cfg a u c =
      .ok (logUserActivity (setUserRole (removeGrantRow cfg u c) u .user)
        u "moderator_removed") := by
  unfold removeModerator
  simp only [removeGrantRow] at hcnt hu
  simp only [hadmin, hgr, Bool.not_true, if_false, hcnt, hu, hrole]
  simp [removeGrantRow]

lemma removeModerator_keeps_moderator (cfg : ConfigStore) (a u c : Nat)
    (hadmin : checkManageUsers cfg a = true)
    (hgr : hasModeratorPermission cfg u c = true)
    (hcnt : ¬countModeratorPermissions (removeGrantRow cfg u c) u = 0) :
    removeModerator cfg a u c =
      .ok (logUserActivity (removeGrantRow cfg u c) u "moderator_removed") := by
  unfold removeModerator
  simp only [removeGrantRow] at hcnt
  simp only [hadmin, hgr, Bool.not_true, if_false, beq_iff_eq, hcnt, if_false]
  simp [removeGrantRow]


lemma getUserById_afterAssignPromote (cfg : ConfigStore) (u c v : Nat) :
    getUserById (afterAssignPromote cfg u c) v = getUserById (setUserRole cfg u .moderator) v := rfl

lemma getUserById_afterAssignKeepRole (cfg : ConfigStore) (u c v : Nat) :
    getUserById (afterAssignKeepRole cfg u c) v = getUserById cfg v := rfl

lemma getUserById_removeGrantRow (cfg : ConfigStore) (u c v : Nat) :
    getUserById (removeGrantRow cfg u c) v = getUserById cfg v := rfl

lemma getUserById_logUserActivity (cfg : ConfigStore) (u : Nat) (s : String) (v : Nat) :
    getUserById (logUserActivity cfg u s) v = getUserById cfg v := rfl

lemma grants_filter_eq_self (mp : List (Nat × Nat)) (u c : Nat)
    (hng : ∀ g ∈ mp, ¬g.1 = u) :
    mp.filter (fun g => !(g.1 == u && g.2 == c)) = mp := by
  apply List.filter_eq_self.mpr
  intro g hg
  simp [hng g hg]

lemma grants_any_false (mp : List (Nat × Nat)) (u c : Nat)
    (hng : ∀ g ∈ mp, ¬g.1 = u) :
    mp.any (fun g => g.1 == u && g.2 == c) = false := by
  simp only [List.any_eq_false]
  intro g hg
  simp [hng g hg]

lemma grants_filter_u_nil (mp : List (Nat × Nat)) (u : Nat)
    (hng : ∀ g ∈ mp, ¬g.1 = u) :
    mp.filter (fun g => g.1 == u) = [] := by
  simp only [List.filter_eq_nil_iff]
  intro g hg
  simp [hng g hg]

/-- C5: granting a category to a plain member promotes them to
moderator; revoking their sole grant demotes them back to member (the
grant row is deleted first, which is why the remaining-grant count hits
zero); and with two grants, revoking one leaves the moderator role in
place because one grant still remains after the delete. -/
theorem moderator_grant_role_transitions
    (cfg : ConfigStore) (a u c1 c2 : Nat) (usr : User)
    (hadmin : checkManageUsers cfg a = true)
    (hu : getUserById cfg u = some usr)
    (hrole : usr.role = .user)
    (hc1 : categoryRowExists cfg c1 = true)
    (hc2 : categoryRowExists cfg c2 = true)
    (hne : ¬c1 = c2)
    (hcnt : countModeratorPermissions cfg u = 0) :
    ∃ cfg1,
      assignModerator cfg a u c1 = .ok cfg1 ∧
      userRoleOf cfg1 u = some .moderator ∧
      hasModeratorPermission cfg1 u c1 = true ∧
      (∃ cfg2, removeModerator cfg1 a u c1 = .ok cfg2 ∧
        userRoleOf cfg2 u = some .user ∧
        hasModeratorPermission cfg2 u c1 = false) ∧
      (∃ cfg2 cfg3,
        assignModerator cfg1 a u c2 = .ok cfg2 ∧
        removeModerator cfg2 a u c1 = .ok cfg3 ∧
        userRoleOf cfg3 u = some .moderator) := by
  have hng : ∀ g ∈ cfg.moderator_permissions, ¬g.1 = u :=
    no_grants_of_count_zero cfg u hcnt
  have hau : ¬a = u := by
    intro he
    have h2 : checkManageUsers cfg u = true := by rw [← he]; exact hadmin
    unfold checkManageUsers at h2
    rw [hu] at h2
    by_cases h0 : u == 0
    · simp [h0] at h2
    · simp [h0, hrole] at h2
  have hg1 : hasModeratorPermission cfg u c1 = false :=
    hasModeratorPermission_false_of_count_zero cfg u c1 hcnt
  have e1 := assignModerator_promotes cfg a u c1 usr hadmin hu hrole hc1 hg1
  have huA : getUserById (afterAssignPromote cfg u c1) u =
      some { usr with role := .moderator } := by
    rw [getUserById_afterAssignPromote]
    exact getUserById_setUserRole_self cfg u .moderator usr hu
  have hadmin1 : checkManageUsers (afterAssignPromote cfg u c1) a = true := by
    unfold checkManageUsers
    rw [getUserById_afterAssignPromote, getUserById_setUserRole_ne cfg u a .moderator hau]
    unfold checkManageUsers at hadmin
    exact hadmin
  have hmpA : (afterAssignPromote cfg u c1).moderator_permissions =
      cfg.moderator_permissions ++ [(u, c1)] := rfl
  have hgr1 : hasModeratorPermission (afterAssignPromote cfg u c1) u c1 = true := by
    unfold hasModeratorPermission
    rw [hmpA]
    simp
  have hfA : (afterAssignPromote cfg u c1).moderator_permissions.filter
      (fun g => !(g.1 == u && g.2 == c1)) = cfg.moderator_permissions := by
    rw [hmpA, List.filter_append, grants_filter_eq_self cfg.moderator_permissions u c1 hng]
    simp
  refine ⟨afterAssignPromote cfg u c1, e1, ?_, hgr1, ?_, ?_⟩
  · simp [userRoleOf, huA]
  · -- revoking the sole grant demotes back to user
    have hcntA : countModeratorPermissions
        (removeGrantRow (afterAssignPromote cfg u c1) u c1) u = 0 := by
      unfold countModeratorPermissions removeGrantRow
      simp only
      rw [hfA]
      simp [grants_filter_u_nil cfg.moderator_permissions u hng]
    have huA2 : getUserById (removeGrantRow (afterAssignPromote cfg u c1) u c1) u =
        some { usr with role := .moderator } := by
      rw [getUserById_removeGrantRow]; exact huA
    have e2 := removeModerator_demotes (afterAssignPromote cfg u c1) a u c1
      { usr with role := .moderator } hadmin1 hgr1 hcntA huA2 rfl
    refine ⟨_, e2, ?_, ?_⟩
    · have h := getUserById_setUserRole_self
        (removeGrantRow (afterAssignPromote cfg u c1) u c1) u .user
        { usr with role := .moderator } huA2
      simp [userRoleOf, getUserById_logUserActivity, h]
    · have hmp2 : (logUserActivity
          (setUserRole (removeGrantRow (afterAssignPromote cfg u c1) u c1) u .user)
          u "moderator_removed").moderator_permissions = cfg.moderator_permissions := hfA
      unfold hasModeratorPermission
      rw [hmp2]
      exact grants_any_false cfg.moderator_permissions u c1 hng
  · -- two grants, then revoking one keeps the moderator role
    have hc2A : categoryRowExists (afterAssignPromote cfg u c1) c2 = true := hc2
    have hne' : ¬c2 = c1 := fun h => hne h.symm
    have hgr2A : hasModeratorPermission (afterAssignPromote cfg u c1) u c2 = false := by
      unfold hasModeratorPermission
      rw [hmpA]
      simp [List.any_append, grants_any_false cfg.moderator_permissions u c2 hng, hne]
    have e3 := assignModerator_keeps_role (afterAssignPromote cfg u c1) a u c2
      { usr with role := .moderator } hadmin1 huA rfl hc2A hgr2A
    have hadmin2 : checkManageUsers
        (afterAssignKeepRole (afterAssignPromote cfg u c1) u c2) a = true := by
      unfold checkManageUsers
      rw [getUserById_afterAssignKeepRole, getUserById_afterAssignPromote,
        getUserById_setUserRole_ne cfg u a .moderator hau]
      unfold checkManageUsers at hadmin
      exact hadmin
    have hmpB : (afterAssignKeepRole (afterAssignPromote cfg u c1) u c2).moderator_permissions =
        (cfg.moderator_permissions ++ [(u, c1)]) ++ [(u, c2)] := rfl
    have hgr12 : hasModeratorPermission
        (afterAssignKeepRole (afterAssignPromote cfg u c1) u c2) u c1 = true := by
      unfold hasModeratorPermission
      rw [hmpB]
      simp
    have hcnt2 : ¬countModeratorPermissions
        (removeGrantRow (afterAssignKeepRole (afterAssignPromote cfg u c1) u c2) u c1) u = 0 := by
      unfold countModeratorPermissions removeGrantRow
      simp only
      rw [hmpB]
      simp [List.filter_append, grants_filter_eq_self cfg.moderator_permissions u c1 hng,
        grants_filter_u_nil cfg.moderator_permissions u hng, hne']
    have e4 := removeModerator_keeps_moderator
      (afterAssignKeepRole (afterAssignPromote cfg u c1) u c2) a u c1 hadmin2 hgr12 hcnt2
    refine ⟨_, _, e3, e4, ?_⟩
    unfold userRoleOf
    rw [getUserById_logUserActivity, getUserById_removeGrantRow,
      getUserById_afterAssignKeepRole, getUserById_afterAssignPromote,
      getUserById_setUserRole_self cfg u .moderator usr hu]
    rfl


/-- The concrete config store exercising the C5 scenario: a site admin
(id 9), a plain member alice (id 5), two active categories 10 and 20,
and no grants. -/
def c5Config : ConfigStore :=
  { users :=
      [{ id := 9, username := "admin", role := .super_admin },
       { id := 5, username := "alice", role := .user }]
    categories :=
      [{ id := 10, name := "general", description := "", display_order := 0
         is_active := true, created_at := 0 },
       { id := 20, name := "news", description := "", display_order := 1
         is_active := true, created_at := 0 }]
    moderator_permissions := []
    activity_logs := [] }

/-- C5 witness: the grant and revocation scenario instantiated on the
concrete store c5Config for member 5 and categories 10 and 20. -/
theorem moderator_grant_role_transitions_witness :
    ∃ cfg1,
      assignModerator c5Config 9 5 10 = .ok cfg1 ∧
      userRoleOf cfg1 5 = some .moderator ∧
      hasModeratorPermission cfg1 5 10 = true ∧
      (∃ cfg2, removeModerator cfg1 9 5 10 = .ok cfg2 ∧
        userRoleOf cfg2 5 = some .user ∧
        hasModeratorPermission cfg2 5 10 = false) ∧
      (∃ cfg2 cfg3,
        assignModerator cfg1 9 5 20 = .ok cfg2 ∧
        removeModerator cfg2 9 5 10 = .ok cfg3 ∧
        userRoleOf cfg3 5 = some .moderator) :=
  moderator_grant_role_transitions c5Config 9 5 10 20
    { id := 5, username := "alice", role := .user }
    (by decide) (by decide) rfl (by decide) (by decide) (by decide) (by decide)


/-! ## C6: getPosts ordering and pagination -/

/-- The rows of the partition belonging to the category
(WHERE category_id = ?). -/
def postsOfCategory (part : ForumPartition) (sid : Nat) : List Post :=
  part.posts.filter (fun p => p.category_id == sid)

/-- The sort key selected by the sortBy option of getPosts. -/
def sortKeyFn (sortBy : String) : Post → Nat :=
  if sortBy == "last_comment_at" then fun p => p.last_comment_at
  else fun p => p.created_at

/-- Descending order on the key with ties broken by insertion order
(row id). -/
def postDescOrder (key : Post → Nat) (a b : Post) : Prop :=
  key b < key a ∨ (key b = key a ∧ a.id < b.id)

lemma mem_insertDescBy (key : Post → Nat) (x y : Post) :
    ∀ l : List Post, y ∈ insertDescBy key x l ↔ y = x ∨ y ∈ l := by
  intro l
  induction l with
  | nil => simp [insertDescBy]
  | cons z zs ih =>
    by_cases hk : key z ≤ key x
    · rw [insertDescBy, if_pos hk]
      simp [or_comm, or_assoc, or_left_comm]
    · rw [insertDescBy, if_neg hk]
      simp only [List.mem_cons, ih]
      tauto

lemma mem_sortDescBy (key : Post → Nat) (y : Post) :
    ∀ l : List Post, y ∈ sortDescBy key l ↔ y ∈ l := by
  intro l
  induction l with
  | nil => simp [sortDescBy]
  | cons x xs ih =>
    rw [sortDescBy, mem_insertDescBy]
    simp [ih]

lemma insertDescBy_pairwise (key : Post → Nat) (x : Post) :
    ∀ l : List Post, l.Pairwise (postDescOrder key) →
      (∀ y ∈ l, x.id < y.id) →
      (insertDescBy key x l).Pairwise (postDescOrder key) := by
  intro l
  induction l with
  | nil => intro _ _; simp [insertDescBy]
  | cons y ys ih =>
    intro hl hx
    rw [List.pairwise_cons] at hl
    obtain ⟨hy, hys⟩ := hl
    by_cases hk : key y ≤ key x
    · rw [insertDescBy, if_pos hk]
      apply List.Pairwise.cons
      · intro z hz
        rcases List.mem_cons.mp hz with rfl | hz'
        · rcases lt_or_eq_of_le hk with h | h
          · exact Or.inl h
          · exact Or.inr ⟨h, hx z (by simp)⟩
        · rcases hy z hz' with h | ⟨h, _⟩
          · exact Or.inl (lt_of_lt_of_le h hk)
          · rcases lt_or_eq_of_le hk with h2 | h2
            · exact Or.inl (h ▸ h2)
            · exact Or.inr ⟨h.trans h2, hx z (by simp [hz'])⟩
      · exact List.Pairwise.cons hy hys
    · rw [insertDescBy, if_neg hk]
      apply List.Pairwise.cons
      · intro z hz
        rcases (mem_insertDescBy key x z ys).mp hz with rfl | hz'
        · exact Or.inl (lt_of_not_ge hk)
        · exact hy z hz'
      · exact ih hys (fun z hz => hx z (by simp [hz]))

lemma sortDescBy_pairwise (key : Post → Nat) :
    ∀ l : List Post, l.Pairwise (fun a b => a.id < b.id) →
      (sortDescBy key l).Pairwise (postDescOrder key) := by
  intro l
  induction l with
  | nil => intro _; simp [sortDescBy]
  | cons x xs ih =>
    intro hl
    rw [List.pairwise_cons] at hl
    obtain ⟨hx, hxs⟩ := hl
    rw [sortDescBy]
    apply insertDescBy_pairwise
    · exact ih hxs
    · intro y hy
      exact hx y ((mem_sortDescBy key y xs).mp hy)

/-- page < ceil(total / limit) says exactly that rows beyond the
current page exist. -/
lemma lt_ceilDiv_iff (page total limit : Nat) (hl : 0 < limit) :
    page < (total + limit - 1) / limit ↔ page * limit < total := by
  rw [Nat.lt_iff_add_one_le, Nat.le_div_iff_mul_le hl]
  have h : (page + 1) * limit = page * limit + limit := by ring
  rw [h]
  generalize page * limit = M
  omega

@[simp] lemma postRowOf_post (cfg : ConfigStore) (p : Post) :
    (postRowOf cfg p).post = p := by
  unfold postRowOf
  cases h : getUserById cfg p.user_id <;> simp


/-- C6: getPosts returns exactly the page-th slice (limit rows after
skipping (page-1)*limit) of the partition rows sorted descending on the
chosen column with ties broken by insertion order (row id), together
with the total count, has_next exactly when rows beyond this page
exist, and has_prev exactly when page exceeds 1. -/
theorem getPosts_pagination (cfg : ConfigStore) (part : ForumPartition)
    (subforumId : Nat) (sortBy : String) (page limit : Nat)
    (hsid : ¬subforumId = 0) (hlim : 0 < limit)
    (hsort : sortBy = "created_at" ∨ sortBy = "last_comment_at")
    (hid : (postsOfCategory part subforumId).Pairwise (fun a b => a.id < b.id)) :
    (getPosts cfg part subforumId sortBy page limit).map
        (fun pg => pg.posts.map (fun r => r.post)) =
      .ok (((sortDescBy (sortKeyFn sortBy) (postsOfCategory part subforumId)).drop
        ((page - 1) * limit)).take limit) ∧
    (∀ pg, getPosts cfg part subforumId sortBy page limit = .ok pg →
      pg.posts.Pairwise (fun a b => postDescOrder (sortKeyFn sortBy) a.post b.post) ∧
      pg.pagination.total_count = (postsOfCategory part subforumId).length ∧
      (pg.pagination.has_next = true ↔
        page * limit < (postsOfCategory part subforumId).length) ∧
      (pg.pagination.has_prev = true ↔ 1 < page)) := by
  have hvalid : (["created_at", "last_comment_at"].contains sortBy) = true := by
    rcases hsort with rfl | rfl <;> decide
  constructor
  · rcases hsort with rfl | rfl <;>
      simp [getPosts, hsid, postsOfCategory, sortKeyFn, Except.map,
        List.map_take, List.map_drop, List.map_map, Function.comp_def]
  · intro pg hpg
    simp only [getPosts, hsid, hvalid] at hpg
    rw [if_neg (by simp [hsid]), if_neg (by simp [hvalid])] at hpg
    have hpg' := (Except.ok.inj hpg).symm
    subst hpg'
    refine ⟨?_, rfl, ?_, ?_⟩
    · have hsorted := sortDescBy_pairwise (sortKeyFn sortBy)
        (postsOfCategory part subforumId) hid
      have hsub : (((sortDescBy (sortKeyFn sortBy) (postsOfCategory part subforumId)).drop
          ((page - 1) * limit)).take limit).Sublist
          (sortDescBy (sortKeyFn sortBy) (postsOfCategory part subforumId)) :=
        (List.take_sublist _ _).trans (List.drop_sublist _ _)
      have hslice := hsorted.sublist hsub
      simp only [List.pairwise_map]
      refine hslice.imp ?_
      · intro a b hab
        simpa [postsOfCategory, sortKeyFn] using hab
    · simp only [decide_eq_true_eq]
      exact lt_ceilDiv_iff page (postsOfCategory part subforumId).length limit hlim
    · simp


/-- A partition for category 1 with 45 posts, ids and timestamps 1..45
in insertion order. -/
def c6Partition : ForumPartition :=
  { posts :=
      (List.range 45).map (fun i =>
        { id := i + 1, category_id := 1, user_id := 5, title := "t", content := "c"
          view_count := 0, created_at := i + 1, updated_at := i + 1
          last_comment_at := i + 1 })
    comments := [], attachments := [], posts_fts := [], nextPostId := 46 }

/-- C6 witness: page 2 with pageSize 20 on the 45-post partition
returns rows 21 to 40 of the descending created_at order (ids 25 down
to 6), with total 45, has_next and has_prev both true; the general
theorem instantiates on the same input. -/
theorem getPosts_pagination_witness :
    ((getPosts c5Config c6Partition 1 "created_at" 2 20).map
       (fun pg => pg.posts.map (fun r => r.post.id)) =
      .ok ((List.range 20).map (fun i => 25 - i))) ∧
    ((getPosts c5Config c6Partition 1 "created_at" 2 20).map
       (fun pg => (pg.pagination.total_count, pg.pagination.has_next,
         pg.pagination.has_prev)) = .ok (45, true, true)) ∧
    ((getPosts c5Config c6Partition 1 "created_at" 2 20).map
        (fun pg => pg.posts.map (fun r => r.post)) =
      .ok (((sortDescBy (sortKeyFn "created_at") (postsOfCategory c6Partition 1)).drop
        ((2 - 1) * 20)).take 20) ∧
    (∀ pg, getPosts c5Config c6Partition 1 "created_at" 2 20 = .ok pg →
      pg.posts.Pairwise (fun a b => postDescOrder (sortKeyFn "created_at") a.post b.post) ∧
      pg.pagination.total_count = (postsOfCategory c6Partition 1).length ∧
      (pg.pagination.has_next = true ↔
        2 * 20 < (postsOfCategory c6Partition 1).length) ∧
      (pg.pagination.has_prev = true ↔ 1 < 2))) :=
  ⟨by decide, by decide,
   getPosts_pagination c5Config c6Partition 1 "created_at" 2 20
     (by decide) (by decide) (Or.inl rfl) (by decide)⟩
/-! ## C7 and C10: getPost -/

/-- The UPDATE posts SET view_count = view_count + 1 WHERE id = ? row
transformer. -/
def bumpView (pid : Nat) (q : Post) : Post :=
  if q.id == pid then { q with view_count := q.view_count + 1 } else q

lemma find?_bump_view (pid sid : Nat) :
    ∀ (posts : List Post) (p : Post),
      (posts.map (fun q => q.id)).Nodup →
      posts.find? (fun q => q.id == pid && q.category_id == sid) = some p →
      (posts.map (bumpView pid)).find?
          (fun q => q.id == pid && q.category_id == sid) =
        some { p with view_count := p.view_count + 1 } := by
  intro posts
  induction posts with
  | nil => intro p _ h; simp at h
  | cons x xs ih =>
    intro p hnd h
    simp only [List.map_cons, List.nodup_cons] at hnd
    obtain ⟨hxnot, hnd'⟩ := hnd
    by_cases hpred : (x.id == pid && x.category_id == sid) = true
    · simp only [List.find?_cons, hpred] at h
      cases h
      simp only [Bool.and_eq_true, beq_iff_eq] at hpred
      simp [List.find?_cons, bumpView, hpred.1, hpred.2]
    · have hpred' : (x.id == pid && x.category_id == sid) = false := by
        simpa using hpred
      simp only [List.find?_cons, hpred'] at h
      by_cases hxid : x.id = pid
      · exfalso
        have hpmem := List.mem_of_find?_eq_some h
        have hppred := List.find?_some h
        simp only [Bool.and_eq_true, beq_iff_eq] at hppred
        apply hxnot
        rw [hxid, ← hppred.1]
        exact List.mem_map_of_mem (fun q => q.id) hpmem
      · have hxid' : (x.id == pid) = false := by simpa using hxid
        simp only [List.map_cons, bumpView, hxid', Bool.false_eq_true, if_false,
          List.find?_cons, hpred']
        exact ih p hnd' h

lemma bump_preserves_ids (pid : Nat) (posts : List Post) :
    ((posts.map (bumpView pid)).map (fun q => q.id)) = posts.map (fun q => q.id) := by
  rw [List.map_map]
  apply List.map_congr_left
  intro q _
  by_cases h : q.id = pid <;> simp [bumpView, h]

/-- The result of getPost on a found post with incrementView set and a
working store: the stored row is bumped and the bumped value is shown. -/
lemma getPost_found_eq (cfg : ConfigStore) (part : ForumPartition)
    (postId subforumId : Nat) (p : Post)
    (hpid : ¬postId = 0) (hsid : ¬subforumId = 0)
    (hfind : part.posts.find?
      (fun q => q.id == postId && q.category_id == subforumId) = some p) :
    getPost cfg part postId subforumId true false =
      (some
        { post := { p with view_count := p.view_count + 1 }
          username := match getUserById cfg p.user_id with
            | some u => u.username | none => "알 수 없음"
          role := match getUserById cfg p.user_id with
            | some u => u.role | none => .user
          comment_count := (part.comments.filter (fun c => c.post_id == postId)).length
          attachments := getAttachments part postId },
        { part with posts := part.posts.map (bumpView postId) }) := by
  unfold getPost bumpView
  rw [if_neg (by simp [hpid, hsid]), if_neg (by simp), hfind]
  rfl

/-- C7: on an existing post, getPost with incrementView stores
view_count + 1 and the same incremented value is visible in the
returned row; running the call twice therefore returns the original
count plus one and then plus two. -/
theorem getPost_increments_view (cfg : ConfigStore) (part : ForumPartition)
    (postId subforumId : Nat) (p : Post)
    (hnd : (part.posts.map (fun q => q.id)).Nodup)
    (hpid : ¬postId = 0) (hsid : ¬subforumId = 0)
    (hfind : part.posts.find?
      (fun q => q.id == postId && q.category_id == subforumId) = some p) :
    ∃ d part', getPost cfg part postId subforumId true false = (some d, part') ∧
      d.post.view_count = p.view_count + 1 ∧
      part'.posts.find? (fun q => q.id == postId && q.category_id == subforumId) =
        some { p with view_count := p.view_count + 1 } ∧
      ∃ d2 part'', getPost cfg part' postId subforumId true false = (some d2, part'') ∧
        d2.post.view_count = p.view_count + 2 := by
  have e1 := getPost_found_eq cfg part postId subforumId p hpid hsid hfind
  have hfind2 := find?_bump_view postId subforumId part.posts p hnd hfind
  refine ⟨_, _, e1, rfl, hfind2, ?_⟩
  have e2 := getPost_found_eq cfg { part with posts := part.posts.map (bumpView postId) }
    postId subforumId { p with view_count := p.view_count + 1 } hpid hsid hfind2
  exact ⟨_, _, e2, rfl⟩

/-- The one-post partition for the C7 witness: post 1 in category 1
with view_count 0. -/
def c7Partition : ForumPartition :=
  { posts :=
      [{ id := 1, category_id := 1, user_id := 5, title := "Hello", content := "World"
         view_count := 0, created_at := 1, updated_at := 1, last_comment_at := 1 }]
    comments := []
    attachments := []
    posts_fts := [{ rowid := 1, title := "Hello", content := "World" }]
    nextPostId := 2 }

/-- C7 witness: two getPost(1, 1, incrementView=true) calls on the
fresh post return view_count 1 and then 2. -/
theorem getPost_increments_view_witness :
    ∃ d part', getPost c5Config c7Partition 1 1 true false = (some d, part') ∧
      d.post.view_count = 0 + 1 ∧
      part'.posts.find? (fun q => q.id == 1 && q.category_id == 1) =
        some { id := 1, category_id := 1, user_id := 5, title := "Hello"
               content := "World", view_count := 0 + 1, created_at := 1
               updated_at := 1, last_comment_at := 1 } ∧
      ∃ d2 part'', getPost c5Config part' 1 1 true false = (some d2, part'') ∧
        d2.post.view_count = 0 + 2 :=
  getPost_increments_view c5Config c7Partition 1 1
    { id := 1, category_id := 1, user_id := 5, title := "Hello", content := "World"
      view_count := 0, created_at := 1, updated_at := 1, last_comment_at := 1 }
    (by decide) (by decide) (by decide) (by decide)

/-- C10: getPost never surfaces an error: a falsy postId or partition
key, a missing post, and a failing store access all collapse to the
null result with the partition untouched, and a non-null result can
only arise with valid arguments, a working store and a matching row. -/
theorem getPost_null_collapse (cfg : ConfigStore) (part : ForumPartition)
    (postId subforumId : Nat) (incrementView storeFails : Bool) :
    (postId = 0 → getPost cfg part postId subforumId incrementView storeFails = (none, part)) ∧
    (subforumId = 0 → getPost cfg part postId subforumId incrementView storeFails = (none, part)) ∧
    (storeFails = true → getPost cfg part postId subforumId incrementView storeFails = (none, part)) ∧
    (part.posts.find? (fun q => q.id == postId && q.category_id == subforumId) = none →
      getPost cfg part postId subforumId incrementView storeFails = (none, part)) ∧
    ((getPost cfg part postId subforumId incrementView storeFails).1.isSome = true →
      ¬postId = 0 ∧ ¬subforumId = 0 ∧ storeFails = false ∧
        ∃ p, part.posts.find?
          (fun q => q.id == postId && q.category_id == subforumId) = some p) := by
  refine ⟨?_, ?_, ?_, ?_, ?_⟩
  · intro h; unfold getPost; rw [if_pos (by simp [h])]
  · intro h; unfold getPost; rw [if_pos (by simp [h])]
  · intro h
    unfold getPost
    by_cases hz : (postId == 0 || subforumId == 0) = true
    · rw [if_pos hz]
    · rw [if_neg hz, if_pos h]
  · intro h
    unfold getPost
    by_cases hz : (postId == 0 || subforumId == 0) = true
    · rw [if_pos hz]
    · rw [if_neg hz]
      by_cases hf : storeFails = true
      · rw [if_pos hf]
      · rw [if_neg hf, h]
  · intro h
    unfold getPost at h
    by_cases hz : (postId == 0 || subforumId == 0) = true
    · rw [if_pos hz] at h; simp at h
    · rw [if_neg hz] at h
      by_cases hf : storeFails = true
      · rw [if_pos hf] at h; simp at h
      · rw [if_neg hf] at h
        simp only [Bool.or_eq_true, beq_iff_eq, not_or] at hz
        refine ⟨hz.1, hz.2, by simpa using hf, ?_⟩
        cases hfindc : part.posts.find?
            (fun q => q.id == postId && q.category_id == subforumId) with
        | none => rw [hfindc] at h; simp at h
        | some p => exact ⟨p, rfl⟩

/-- C10 witness: each null case evaluated concretely on small stores. -/
theorem getPost_null_collapse_witness :
    getPost c5Config emptyPartition 0 1 true false = (none, emptyPartition) ∧
    getPost c5Config emptyPartition 1 0 true false = (none, emptyPartition) ∧
    getPost c5Config c7Partition 1 1 true true = (none, c7Partition) ∧
    getPost c5Config emptyPartition 1 1 true false = (none, emptyPartition) :=
  ⟨(getPost_null_collapse c5Config emptyPartition 0 1 true false).1 rfl,
   (getPost_null_collapse c5Config emptyPartition 1 0 true false).2.1 rfl,
   (getPost_null_collapse c5Config c7Partition 1 1 true true).2.2.1 rfl,
   (getPost_null_collapse c5Config emptyPartition 1 1 true false).2.2.2.1 (by decide)⟩


/-! ## C8: fan-out resilience of getSubforums -/

/-- C8: the fan-out over active categories always succeeds and returns
one entry per active category in listing order; a category whose
partition is corrupted contributes the all-zero stats through the
catch, while every readable partition contributes its computed stats. -/
theorem fanout_partial_failure (cfg : ConfigStore) (stores : List (Nat × StoreHealth)) :
    ∃ l, getSubforums cfg stores = .ok l ∧
      l.map (fun x => x.1) =
        sortCategoriesAsc (cfg.categories.filter (fun c => c.is_active)) ∧
      (∀ c stats, (c, stats) ∈ l →
        (stores.find? (fun e => e.1 == c.id)).map (fun e => e.2) = some .corrupted →
        stats = zeroStats) ∧
      (∀ c stats part, (c, stats) ∈ l →
        (stores.find? (fun e => e.1 == c.id)).map (fun e => e.2) =
          some (.readable part) →
        stats = computeStats cfg part c.id) := by
  refine ⟨_, rfl, ?_, ?_, ?_⟩
  · simp [List.map_map, Function.comp_def]
  · intro c stats hmem hcor
    simp only [List.mem_map, Prod.mk.injEq] at hmem
    obtain ⟨c', _, rfl, rfl⟩ := hmem
    unfold getSubforumStats
    rw [hcor]
  · intro c stats part hmem hok
    simp only [List.mem_map, Prod.mk.injEq] at hmem
    obtain ⟨c', _, rfl, rfl⟩ := hmem
    unfold getSubforumStats
    rw [hok]

/-- Config store for the C8 witness: three active categories. -/
def c8Config : ConfigStore :=
  { users := [{ id := 5, username := "alice", role := .user }]
    categories :=
      [{ id := 1, name := "a", description := "", display_order := 0
         is_active := true, created_at := 0 },
       { id := 2, name := "b", description := "", display_order := 1
         is_active := true, created_at := 0 },
       { id := 3, name := "c", description := "", display_order := 2
         is_active := true, created_at := 0 }]
    moderator_permissions := []
    activity_logs := [] }

/-- Partition of category 1 for the C8 witness: two posts, one
comment. -/
def c8Partition1 : ForumPartition :=
  { posts :=
      [{ id := 1, category_id := 1, user_id := 5, title := "p1", content := "x"
         view_count := 0, created_at := 4, updated_at := 4, last_comment_at := 4 },
       { id := 2, category_id := 1, user_id := 5, title := "p2", content := "y"
         view_count := 0, created_at := 5, updated_at := 5, last_comment_at := 5 }]
    comments := [{ id := 1, post_id := 1, user_id := 5, content := "hi", created_at := 3 }]
    attachments := []
    posts_fts := [{ rowid := 1, title := "p1", content := "x" },
      { rowid := 2, title := "p2", content := "y" }]
    nextPostId := 3 }

/-- The stores of the C8 witness: partition 1 readable, partition 3
corrupted, partition 2 not yet created. -/
def c8Stores : List (Nat × StoreHealth) :=
  [(1, .readable c8Partition1), (3, .corrupted)]

/-- C8 witness: the corrupted partition 3 contributes zero counts and
null last activity while categories 1 and 2 keep their correct stats,
and the call succeeds; the general theorem instantiates on the same
stores. -/
theorem fanout_partial_failure_witness :
    ((getSubforums c8Config c8Stores).map (fun l =>
        l.map (fun x => (x.1.id, x.2.post_count, x.2.comment_count))) =
      .ok [(1, 2, 1), (2, 0, 0), (3, 0, 0)]) ∧
    ((getSubforums c8Config c8Stores).map (fun l =>
        l.map (fun x => x.2.last_activity_at)) = .ok [some 5, none, none]) ∧
    (∃ l, getSubforums c8Config c8Stores = .ok l ∧
      l.map (fun x => x.1) =
        sortCategoriesAsc (c8Config.categories.filter (fun c => c.is_active)) ∧
      (∀ c stats, (c, stats) ∈ l →
        (c8Stores.find? (fun e => e.1 == c.id)).map (fun e => e.2) = some .corrupted →
        stats = zeroStats) ∧
      (∀ c stats part, (c, stats) ∈ l →
        (c8Stores.find? (fun e => e.1 == c.id)).map (fun e => e.2) =
          some (.readable part) →
        stats = computeStats c8Config part c.id)) :=
  ⟨by decide, by decide, fanout_partial_failure c8Config c8Stores⟩

end Forum
